import Mathlib

/-!
Verification development for a product-catalog CRUD service with a
read-through / write-invalidate (cache-aside) Redis cache.

Shallow embedding of the source:
  src/models/product.py   (Product record, ProductCreate, ProductUpdate)
  src/config.py           (Settings)
  src/services/cache.py   (CacheService: Redis client with absorbed failures)
  src/services/database.py(SQLAlchemy store, modelled as a list of records)
  src/services/product.py (ProductService: the cache-aside orchestrator)

Modelling conventions:
  - Python floats only ever flow through this program unchanged (stored,
    serialized, compared); prices are therefore embedded as rationals.
  - Redis calls can raise RedisError (connection loss, timeout); each call
    site takes a `RedisOutcome` fault parameter injecting that behaviour.
  - TTL expiry is modelled as adversarial removal of cache keys between
    operations (`evict`), since the backend may expire an entry at any time.
  - `str(uuid4())` is modelled as a fresh-identifier generator: a counter
    rendered into the identifier string.  The contract of UUID generation is
    that successive identifiers never repeat, which the injective rendering
    captures.
-/

set_option autoImplicit false

/-- JSON values as produced by `json.loads` with `decode_responses=True`.
Objects model the resulting Python dict (keys already deduplicated by the
parser). -/
inductive Json where
  | null
  | bool (b : Bool)
  | num (q : Rat)
  | str (s : String)
  | arr (elems : List Json)
  | obj (fields : List (String × Json))

/-- Python truthiness (`if x:`) of a deserialized JSON value: `None`,
`False`, `0`, `""`, `[]` and an empty dict are falsy, everything else truthy. -/
def Json.truthy : Json → Bool
  | .null => false
  | .bool b => b
  | .num q => if q = 0 then false else true
  | .str s => if s = "" then false else true
  | .arr elems => !elems.isEmpty
  | .obj fields => !fields.isEmpty

/-- Lookup in a parsed JSON object (a Python dict). -/
def jlookup : List (String × Json) → String → Option Json
  | [], _ => none
  | (k, v) :: rest, key => if k = key then some v else jlookup rest key

/-- Product record as stored by the Persistent Store and carried by
`ProductResponse` (src/models/product.py).  `created_at` / `updated_at` are
never read by any operation of the service and are omitted. -/
structure Product where
  id : String
  name : String
  description : String
  price : Rat
  stock_quantity : Int

/-- Input of `create` (src/models/product.py, `ProductCreate`). -/
structure ProductCreate where
  name : String
  description : String
  price : Rat
  stock_quantity : Int

/-- Input of `update` (src/models/product.py, `ProductUpdate`): each field is
present (explicitly set) or absent.  `model_dump(exclude_unset=True)` yields
exactly the present fields. -/
structure ProductUpdate where
  name : Option String
  description : Option String
  price : Option Rat
  stock_quantity : Option Int

/-- Validation performed by pydantic on `ProductCreate` (min/max lengths,
positive price, non-negative stock). -/
def validCreate (pd : ProductCreate) : Prop :=
  1 ≤ pd.name.length ∧ pd.name.length ≤ 255 ∧
    1 ≤ pd.description.length ∧ 0 < pd.price ∧ 0 ≤ pd.stock_quantity

instance (pd : ProductCreate) : Decidable (validCreate pd) :=
  inferInstanceAs (Decidable (1 ≤ pd.name.length ∧ pd.name.length ≤ 255 ∧
    1 ≤ pd.description.length ∧ 0 < pd.price ∧ 0 ≤ pd.stock_quantity))

/-- Serialization `json.dumps(product.to_dict())` of a product record,
represented by the JSON value the dump parses back to
(src/models/product.py, `to_dict`). -/
def productToJson (p : Product) : Json :=
  .obj [("id", .str p.id), ("name", .str p.name),
    ("description", .str p.description), ("price", .num p.price),
    ("stock_quantity", .num (p.stock_quantity : Rat))]

/-- Field extraction for a pydantic `str` field (no coercion from other
JSON types in pydantic v2). -/
def asStr : Json → Option String
  | .str s => some s
  | _ => none

/-- Field extraction for a pydantic `float` field (accepts any JSON number). -/
def asFloat : Json → Option Rat
  | .num q => some q
  | _ => none

/-- Field extraction for a pydantic `int` field (accepts a JSON number with
no fractional part). -/
def asInt : Json → Option Int
  | .num q => if q.den = 1 then some q.num else none
  | _ => none

/-- Construction `ProductResponse(**cached_product)`: succeeds only on a
JSON object carrying the five required fields with accepted types (extra
keys are ignored by pydantic); on anything else Python raises
(`TypeError` / pydantic `ValidationError`), modelled as `none`. -/
def productOfJson : Json → Option Product
  | .obj fields => do
    let id ← jlookup fields "id" >>= asStr
    let name ← jlookup fields "name" >>= asStr
    let description ← jlookup fields "description" >>= asStr
    let price ← jlookup fields "price" >>= asFloat
    let stock ← jlookup fields "stock_quantity" >>= asInt
    some ⟨id, name, description, price, stock⟩
  | _ => none

/-- Uncaught Python exception escaping an orchestrator operation. -/
inductive PyError where
  | validationError

/-- Outcome of one call into the Redis client: `ok`, or a raised
`RedisError` (connection failure, timeout, ...). -/
inductive RedisOutcome where
  | ok
  | err

/-- Bytes stored under one Redis key, represented by their two observable
effects in `get_product_from_cache`: Python truthiness of the raw string and
the result of `json.loads`.  `empty` is the raw empty string (falsy before
parsing), `malformed` a non-empty string on which `json.loads` raises,
`val j` a non-empty string parsing to `j`. -/
inductive CachedBytes where
  | empty
  | malformed
  | val (j : Json)

/-- State of the Redis database: key/value bindings, first binding wins. -/
def RedisState := List (String × CachedBytes)

/-- Redis GET. -/
def rget : RedisState → String → Option CachedBytes
  | [], _ => none
  | (k, v) :: rest, key => if k = key then some v else rget rest key

/-- Redis SETEX (the TTL itself is not part of the state; expiry is modelled
by `evict`). -/
def rset (s : RedisState) (key : String) (v : CachedBytes) : RedisState :=
  (key, v) :: s

/-- Redis DEL. -/
def rdel : RedisState → String → RedisState
  | [], _ => []
  | (k, v) :: rest, key =>
    if k = key then rdel rest key else (k, v) :: rdel rest key

/-- TTL expiry: the backend may drop any set of keys at any time. -/
def evict : RedisState → List String → RedisState
  | s, [] => s
  | s, k :: ks => evict (rdel s k) ks

/-- Application settings (src/config.py) at their defaults. -/
structure Settings where
  api_port : Nat
  redis_host : String
  redis_port : Nat
  cache_ttl_seconds : Nat
  database_url : String

def settings : Settings :=
  { api_port := 8080, redis_host := "redis", redis_port := 6379,
    cache_ttl_seconds := 3600, database_url := "sqlite:///./products.db" }

/-- Arguments passed to the `redis.Redis(...)` constructor in
`CacheService._connect` (src/services/cache.py lines 28-37). -/
structure RedisClientConfig where
  host : String
  port : Nat
  db : Nat
  decode_responses : Bool
  socket_connect_timeout : Option Nat
  socket_timeout : Option Nat
  retry_on_timeout : Bool
  health_check_interval : Nat

/-- The literal client configuration built by `CacheService._connect`. -/
def connectConfig : RedisClientConfig :=
  { host := settings.redis_host, port := settings.redis_port, db := 0,
    decode_responses := true, socket_connect_timeout := some 5,
    socket_timeout := some 5, retry_on_timeout := true,
    health_check_interval := 30 }

/-- Mutable state of a `CacheService` instance: the Redis client handle, or
`none` when the initial connection failed and the cache is disabled. -/
structure CacheServiceState where
  redis_client : Option RedisClientConfig

/-- CacheService.__init__ / _connect: build the client and ping it; on
`RedisError` the client is set to `None` and the cache stays disabled. -/
def CacheService.init : RedisOutcome → CacheServiceState
  | .ok => ⟨some connectConfig⟩
  | .err => ⟨none⟩

/-- Cache key derivation `CacheService._get_cache_key`. -/
def cacheKey (product_id : String) : String :=
  "product:" ++ product_id

/-- CacheService.get_product_from_cache: `None` when the client is absent;
`redis.get` raising `RedisError` is caught and yields `None`; an absent key
or falsy raw string is a miss; `json.loads` raising `JSONDecodeError` is
caught and yields `None`; otherwise the parsed value is returned. -/
def CacheService.get_product_from_cache (client : Option RedisClientConfig)
    (redis : RedisState) (fault : RedisOutcome) (product_id : String) :
    Option Json :=
  match client with
  | none => none
  | some _ =>
    match fault with
    | .err => none
    | .ok =>
      match rget redis (cacheKey product_id) with
      | none => none
      | some .empty => none
      | some .malformed => none
      | some (.val j) => some j

/-- CacheService.set_product_in_cache: no-op without a client; `RedisError`
from `setex` is caught and leaves the state unchanged; otherwise the record
is stored serialized under its key. -/
def CacheService.set_product_in_cache (client : Option RedisClientConfig)
    (redis : RedisState) (fault : RedisOutcome) (product : Product) :
    RedisState :=
  match client with
  | none => redis
  | some _ =>
    match fault with
    | .err => redis
    | .ok => rset redis (cacheKey product.id) (.val (productToJson product))

/-- CacheService.invalidate_product_cache: no-op without a client;
`RedisError` from `delete` is caught and leaves the state unchanged;
deleting an absent key is a no-op. -/
def CacheService.invalidate_product_cache (client : Option RedisClientConfig)
    (redis : RedisState) (fault : RedisOutcome) (product_id : String) :
    RedisState :=
  match client with
  | none => redis
  | some _ =>
    match fault with
    | .err => redis
    | .ok => rdel redis (cacheKey product_id)

/-- CacheService.health_check: `False` without a client, otherwise the
result of `ping` (`RedisError` caught as `False`). -/
def CacheService.health_check (client : Option RedisClientConfig)
    (fault : RedisOutcome) : Bool :=
  match client with
  | none => false
  | some _ =>
    match fault with
    | .err => false
    | .ok => true

/-- Digit list of a natural number, least significant first, with explicit
fuel (structural recursion so that concrete instances compute). -/
def digitsAux : Nat → Nat → List Nat
  | 0, _ => []
  | fuel + 1, n => if n = 0 then [] else n % 10 :: digitsAux fuel (n / 10)

/-- Digit list of `n`; fuel `n` suffices since the argument at least halves. -/
def ndigits (n : Nat) : List Nat := digitsAux n n

/-- Inverse of `ndigits`, used to prove the rendering injective. -/
def undigits (l : List Nat) : Nat :=
  l.foldr (fun d acc => d + 10 * acc) 0

/-- Decimal digit as a character. -/
def digitChar (d : Nat) : Char := Char.ofNat (48 + d)

/-- Decimal rendering of a natural number (digit order is irrelevant: the
identifier is opaque). -/
def natStr (n : Nat) : String := ⟨(ndigits n).map digitChar⟩

/-- Fixed part of every generated identifier. -/
def uuidBase : String := "00000000-0000-4000-8000-"

/-- Identifier generator modelling `str(uuid4())`
(src/models/product.py line 80): the `n`-th identifier ever generated.
UUID generation never repeats an identifier; the injective rendering of the
generation counter captures exactly that contract. -/
def uuid4 (n : Nat) : String := uuidBase ++ natStr n

/-- Persistent Store (src/services/database.py): the `products` table plus
the state of the identifier generator. -/
structure Database where
  products : List Product
  nextUuid : Nat

/-- First record with the given id, as `query.filter(ProductDB.id == product_id).first()`. -/
def findById : List Product → String → Option Product
  | [], _ => none
  | p :: ps, product_id =>
    if p.id = product_id then some p else findById ps product_id

/-- database.get_product_by_id. -/
def database.get_product_by_id (db : Database) (product_id : String) :
    Option Product :=
  findById db.products product_id

/-- database.create_product: insert a new row whose id comes from the
generator; returns the refreshed row. -/
def database.create_product (db : Database) (pd : ProductCreate) :
    Product × Database :=
  let p : Product :=
    { id := uuid4 db.nextUuid, name := pd.name,
      description := pd.description, price := pd.price,
      stock_quantity := pd.stock_quantity }
  (p, { products := db.products ++ [p], nextUuid := db.nextUuid + 1 })

/-- Application of `model_dump(exclude_unset=True)` followed by `setattr`
for each present field (src/services/database.py lines 117-119). -/
def applyUpdate (p : Product) (u : ProductUpdate) : Product :=
  { id := p.id, name := u.name.getD p.name,
    description := u.description.getD p.description,
    price := u.price.getD p.price,
    stock_quantity := u.stock_quantity.getD p.stock_quantity }

/-- In-place update of the first row matching the id, as performed by
`query...first()` followed by `setattr` and `commit`. -/
def updateFirst : List Product → String → ProductUpdate →
    Option (Product × List Product)
  | [], _, _ => none
  | p :: ps, product_id, u =>
    if p.id = product_id then
      some (applyUpdate p u, applyUpdate p u :: ps)
    else
      match updateFirst ps product_id u with
      | none => none
      | some (r, ps') => some (r, p :: ps')

/-- Removal of the first row matching the id, as performed by
`query...first()` followed by `session.delete`. -/
def removeFirst : List Product → String → Option (List Product)
  | [], _ => none
  | p :: ps, product_id =>
    if p.id = product_id then some ps
    else
      match removeFirst ps product_id with
      | none => none
      | some ps' => some (p :: ps')

/-- database.update_product: `None` and no change when the id is absent,
otherwise the updated row and the new table. -/
def database.update_product (db : Database) (product_id : String)
    (u : ProductUpdate) : Option Product × Database :=
  match updateFirst db.products product_id u with
  | none => (none, db)
  | some (r, ps') => (some r, { db with products := ps' })

/-- database.delete_product: `False` and no change when the id is absent,
otherwise `True` and the new table. -/
def database.delete_product (db : Database) (product_id : String) :
    Bool × Database :=
  match removeFirst db.products product_id with
  | none => (false, db)
  | some ps' => (true, { db with products := ps' })

/-- Cache-miss path of ProductService.get_product (src/services/product.py
lines 32-43): query the database; on absence report not found without
touching the cache; otherwise best-effort store the fresh record and return
it. -/
def ProductService.get_product_on_miss (client : Option RedisClientConfig)
    (redis : RedisState) (setF : RedisOutcome) (db : Database)
    (product_id : String) : Except PyError (Option Product) × RedisState :=
  match database.get_product_by_id db product_id with
  | none => (.ok none, redis)
  | some p =>
    (.ok (some p), CacheService.set_product_in_cache client redis setF p)

/-- ProductService.get_product: try the cache first; a truthy deserialized
value is returned through `ProductResponse(**cached_product)` (which raises
on a non-conforming value); anything falsy falls through to the database. -/
def ProductService.get_product (client : Option RedisClientConfig)
    (redis : RedisState) (getF setF : RedisOutcome) (db : Database)
    (product_id : String) : Except PyError (Option Product) × RedisState :=
  match CacheService.get_product_from_cache client redis getF product_id with
  | some j =>
    if j.truthy then
      match productOfJson j with
      | some p => (.ok (some p), redis)
      | none => (.error .validationError, redis)
    else ProductService.get_product_on_miss client redis setF db product_id
  | none => ProductService.get_product_on_miss client redis setF db product_id

/-- ProductService.create_product: insert into the database only; the cache
service is never called (the returned cache state is the input one). -/
def ProductService.create_product (client : Option RedisClientConfig)
    (redis : RedisState) (db : Database) (pd : ProductCreate) :
    Product × Database × RedisState :=
  let r := database.create_product db pd
  (r.1, r.2, redis)

/-- ProductService.update_product: update the database; on `None` return
not found without touching the cache; on success invalidate the cache entry
and return the updated record. -/
def ProductService.update_product (client : Option RedisClientConfig)
    (redis : RedisState) (invF : RedisOutcome) (db : Database)
    (product_id : String) (u : ProductUpdate) :
    Option Product × Database × RedisState :=
  match database.update_product db product_id u with
  | (none, db') => (none, db', redis)
  | (some p, db') =>
    (some p, db',
      CacheService.invalidate_product_cache client redis invF product_id)

/-- ProductService.delete_product: delete from the database; on success
invalidate the cache entry. -/
def ProductService.delete_product (client : Option RedisClientConfig)
    (redis : RedisState) (invF : RedisOutcome) (db : Database)
    (product_id : String) : Bool × Database × RedisState :=
  match database.delete_product db product_id with
  | (false, db') => (false, db', redis)
  | (true, db') =>
    (true, db',
      CacheService.invalidate_product_cache client redis invF product_id)

/-- One logical operation of the service. -/
inductive Op where
  | create (pd : ProductCreate)
  | read (product_id : String)
  | update (product_id : String) (u : ProductUpdate)
  | delete (product_id : String)

/-- Visible outcome of one operation. -/
inductive OpResult where
  | created (p : Product)
  | got (r : Except PyError (Option Product))
  | updated (r : Option Product)
  | deleted (b : Bool)

/-- One orchestrator step under a given client handle, with every cache
call succeeding (`RedisOutcome.ok`); with `client = none` the cache is
entirely unavailable and every cache call is a miss / no-op. -/
def stepOp (client : Option RedisClientConfig) (db : Database)
    (redis : RedisState) : Op → OpResult × Database × RedisState
  | .create pd =>
    let r := ProductService.create_product client redis db pd
    (.created r.1, r.2.1, r.2.2)
  | .read product_id =>
    let r := ProductService.get_product client redis .ok .ok db product_id
    (.got r.1, db, r.2)
  | .update product_id u =>
    let r := ProductService.update_product client redis .ok db product_id u
    (.updated r.1, r.2.1, r.2.2)
  | .delete product_id =>
    let r := ProductService.delete_product client redis .ok db product_id
    (.deleted r.1, r.2.1, r.2.2)

/-- Run of a sequence of operations.  Before each operation the backend may
expire (drop) an arbitrary set of keys, taken from the schedule `evs`. -/
def runOps (client : Option RedisClientConfig) :
    Database → RedisState → List Op → List (List String) →
    List OpResult × Database × RedisState
  | db, redis, [], _ => ([], db, redis)
  | db, redis, op :: ops, evs =>
    let redis₁ := evict redis (evs.headD [])
    let r := stepOp client db redis₁ op
    let rest := runOps client r.2.1 r.2.2 ops evs.tail
    (r.1 :: rest.1, rest.2.1, rest.2.2)

/-- One direct call into the cache service, with its injected fault. -/
inductive CacheOp where
  | fetch (product_id : String) (fault : RedisOutcome)
  | store (product : Product) (fault : RedisOutcome)
  | remove (product_id : String) (fault : RedisOutcome)
  | health (fault : RedisOutcome)

/-- Result of one direct cache-service call. -/
inductive CacheCallResult where
  | fetched (r : Option Json)
  | stored
  | removed
  | healthy (b : Bool)

/-- One cache-service call, threading the service state (which no method
ever reassigns) and the backend state. -/
def cacheStep (st : CacheServiceState) (redis : RedisState) :
    CacheOp → CacheCallResult × CacheServiceState × RedisState
  | .fetch product_id fault =>
    (.fetched (CacheService.get_product_from_cache st.redis_client redis
      fault product_id), st, redis)
  | .store product fault =>
    (.stored, st,
      CacheService.set_product_in_cache st.redis_client redis fault product)
  | .remove product_id fault =>
    (.removed, st,
      CacheService.invalidate_product_cache st.redis_client redis fault
        product_id)
  | .health fault =>
    (.healthy (CacheService.health_check st.redis_client fault), st, redis)

/-- Run of a sequence of direct cache-service calls. -/
def runCache : CacheServiceState → RedisState → List CacheOp →
    List CacheCallResult × CacheServiceState × RedisState
  | st, redis, [] => ([], st, redis)
  | st, redis, op :: ops =>
    let r := cacheStep st redis op
    let rest := runCache r.2.1 r.2.2 ops
    (r.1 :: rest.1, rest.2.1, rest.2.2)

/-- Coherence of a cache state with the store: every binding is the
serialization of the current store record under the corresponding key.
This holds initially (empty cache) and is preserved by every operation. -/
def coherent (db : Database) (redis : RedisState) : Prop :=
  ∀ k c, rget redis k = some c →
    ∃ product_id p, k = cacheKey product_id ∧
      database.get_product_by_id db product_id = some p ∧
      c = .val (productToJson p)

/-- Identifier-generator invariant of the store: every row's id was
produced by the generator at some earlier state. -/
def dbIds (db : Database) : Prop :=
  ∀ p ∈ db.products, ∃ k, k < db.nextUuid ∧ p.id = uuid4 k

/-! ### Basic lemmas: strings, the Redis state model, the store model -/

theorem string_append_data (s t : String) : (s ++ t).data = s.data ++ t.data := by
  cases s; cases t; rfl

theorem string_data_inj {s t : String} (h : s.data = t.data) : s = t := by
  cases s; cases t; exact congrArg String.mk h

theorem cacheKey_inj {a b : String} (h : cacheKey a = cacheKey b) : a = b := by
  have h1 := congrArg String.data h
  rw [show cacheKey a = "product:" ++ a from rfl,
    show cacheKey b = "product:" ++ b from rfl,
    string_append_data, string_append_data] at h1
  exact string_data_inj (List.append_cancel_left h1)

theorem rget_rset (s : RedisState) (k : String) (v : CachedBytes) (k' : String) :
    rget (rset s k v) k' = if k = k' then some v else rget s k' := rfl

theorem rget_rdel (s : RedisState) (key k' : String) :
    rget (rdel s key) k' = if key = k' then none else rget s k' := by
  induction s with
  | nil => simp [rget, rdel]
  | cons kv rest ih =>
    obtain ⟨k, v⟩ := kv
    by_cases h1 : k = key <;> by_cases h2 : key = k' <;> by_cases h3 : k = k' <;>
      simp_all [rget, rdel]

theorem rget_evict_some {ks : List String} {s : RedisState} {k : String}
    {c : CachedBytes} (h : rget (evict s ks) k = some c) : rget s k = some c := by
  induction ks generalizing s with
  | nil => exact h
  | cons k0 ks ih =>
    have h2 := ih (s := rdel s k0) h
    rw [rget_rdel] at h2
    by_cases hk : k0 = k
    · simp [hk] at h2
    · simpa [hk] using h2

theorem rget_evict_none {ks : List String} {s : RedisState} {k : String}
    (h : rget s k = none) : rget (evict s ks) k = none := by
  cases h2 : rget (evict s ks) k with
  | none => rfl
  | some c => rw [rget_evict_some h2] at h; exact h.symm ▸ rfl

theorem truthy_productToJson (p : Product) : (productToJson p).truthy = true := rfl

theorem productOfJson_productToJson (p : Product) :
    productOfJson (productToJson p) = some p := by
  simp [productOfJson, productToJson, jlookup, asStr, asFloat, asInt,
    Rat.den_intCast, Rat.num_intCast]

theorem applyUpdate_id (p : Product) (u : ProductUpdate) :
    (applyUpdate p u).id = p.id := rfl

theorem findById_append_some {ps : List Product} {product_id : String}
    {p : Product} (h : findById ps product_id = some p) (q : Product) :
    findById (ps ++ [q]) product_id = some p := by
  induction ps with
  | nil => simp [findById] at h
  | cons r rs ih =>
    simp only [findById, List.cons_append] at h ⊢
    by_cases hr : r.id = product_id
    · simpa [hr] using h
    · simp only [hr, if_false] at h ⊢
      exact ih h

theorem findById_id {ps : List Product} {product_id : String} {p : Product}
    (h : findById ps product_id = some p) : p.id = product_id := by
  induction ps with
  | nil => simp [findById] at h
  | cons r rs ih =>
    simp only [findById] at h
    by_cases hr : r.id = product_id
    · simp only [hr, if_true, Option.some.injEq] at h
      rw [← h]; exact hr
    · simp only [hr, if_false] at h
      exact ih h

theorem updateFirst_eq_none {ps : List Product} {product_id : String}
    (u : ProductUpdate) (h : findById ps product_id = none) :
    updateFirst ps product_id u = none := by
  induction ps with
  | nil => rfl
  | cons r rs ih =>
    simp only [findById] at h
    by_cases hr : r.id = product_id
    · simp [hr] at h
    · simp only [hr, if_false] at h
      simp [updateFirst, hr, ih h]

theorem updateFirst_of_findById {ps : List Product} {product_id : String}
    {p : Product} (u : ProductUpdate) (h : findById ps product_id = some p) :
    ∃ ps', updateFirst ps product_id u = some (applyUpdate p u, ps') := by
  induction ps with
  | nil => simp [findById] at h
  | cons r rs ih =>
    simp only [findById] at h
    by_cases hr : r.id = product_id
    · simp only [hr, if_true, Option.some.injEq] at h
      subst h
      exact ⟨applyUpdate r u :: rs, by simp [updateFirst, hr]⟩
    · simp only [hr, if_false] at h
      obtain ⟨ps', hps'⟩ := ih h
      exact ⟨r :: ps', by simp [updateFirst, hr, hps']⟩

theorem updateFirst_findById {ps ps' : List Product} {product_id : String}
    {r : Product} {u : ProductUpdate}
    (h : updateFirst ps product_id u = some (r, ps')) :
    findById ps' product_id = some r := by
  induction ps generalizing ps' with
  | nil => simp [updateFirst] at h
  | cons q qs ih =>
    simp only [updateFirst] at h
    by_cases hq : q.id = product_id
    · simp only [hq, if_true, Option.some.injEq, Prod.mk.injEq] at h
      obtain ⟨h1, h2⟩ := h
      subst h1; subst h2
      simp [findById, applyUpdate_id, hq]
    · simp only [hq, if_false] at h
      cases h' : updateFirst qs product_id u with
      | none => rw [h'] at h; simp at h
      | some rp =>
        rw [h'] at h
        obtain ⟨r0, ps0⟩ := rp
        simp only [Option.some.injEq, Prod.mk.injEq] at h
        obtain ⟨h1, h2⟩ := h
        subst h1; subst h2
        simp only [findById, hq, if_false]
        exact ih h'

theorem updateFirst_frame {ps ps' : List Product} {product_id : String}
    {r : Product} {u : ProductUpdate}
    (h : updateFirst ps product_id u = some (r, ps'))
    {pid : String} (hne : pid ≠ product_id) :
    findById ps' pid = findById ps pid := by
  induction ps generalizing ps' with
  | nil => simp [updateFirst] at h
  | cons q qs ih =>
    simp only [updateFirst] at h
    by_cases hq : q.id = product_id
    · simp only [hq, if_true, Option.some.injEq, Prod.mk.injEq] at h
      obtain ⟨h1, h2⟩ := h
      subst h1; subst h2
      have hqpid : q.id ≠ pid := by rw [hq]; exact fun hc => hne hc.symm
      simp [findById, applyUpdate_id, hqpid]
    · simp only [hq, if_false] at h
      cases h' : updateFirst qs product_id u with
      | none => rw [h'] at h; simp at h
      | some rp =>
        rw [h'] at h
        obtain ⟨r0, ps0⟩ := rp
        simp only [Option.some.injEq, Prod.mk.injEq] at h
        obtain ⟨h1, h2⟩ := h
        subst h1; subst h2
        simp only [findById]
        by_cases hqpid : q.id = pid
        · simp [hqpid]
        · simp only [hqpid, if_false]
          exact ih h'

theorem removeFirst_eq_none {ps : List Product} {product_id : String}
    (h : findById ps product_id = none) : removeFirst ps product_id = none := by
  induction ps with
  | nil => rfl
  | cons r rs ih =>
    simp only [findById] at h
    by_cases hr : r.id = product_id
    · simp [hr] at h
    · simp only [hr, if_false] at h
      simp [removeFirst, hr, ih h]

theorem removeFirst_frame {ps ps' : List Product} {product_id : String}
    (h : removeFirst ps product_id = some ps')
    {pid : String} (hne : pid ≠ product_id) :
    findById ps' pid = findById ps pid := by
  induction ps generalizing ps' with
  | nil => simp [removeFirst] at h
  | cons q qs ih =>
    simp only [removeFirst] at h
    by_cases hq : q.id = product_id
    · simp only [hq, if_true, Option.some.injEq] at h
      subst h
      have hqpid : q.id ≠ pid := by rw [hq]; exact fun hc => hne hc.symm
      simp [findById, hqpid]
    · simp only [hq, if_false] at h
      cases h' : removeFirst qs product_id with
      | none => rw [h'] at h; simp at h
      | some ps0 =>
        rw [h'] at h
        simp only [Option.some.injEq] at h
        subst h
        simp only [findById]
        by_cases hqpid : q.id = pid
        · simp [hqpid]
        · simp only [hqpid, if_false]
          exact ih h'

/-! ### Lemmas about the identifier generator -/

theorem digitsAux_lt (fuel : Nat) : ∀ (n : Nat), ∀ d ∈ digitsAux fuel n, d < 10 := by
  induction fuel with
  | zero => intro n d hd; simp [digitsAux] at hd
  | succ fuel ih =>
    intro n d hd
    simp only [digitsAux] at hd
    by_cases h : n = 0
    · simp [h] at hd
    · simp only [h, if_false, List.mem_cons] at hd
      rcases hd with h1 | h1
      · subst h1
        exact Nat.mod_lt _ (by decide)
      · exact ih _ d h1

theorem undigits_cons (d : Nat) (l : List Nat) :
    undigits (d :: l) = d + 10 * undigits l := rfl

theorem undigits_digitsAux (fuel : Nat) : ∀ (n : Nat), n ≤ fuel →
    undigits (digitsAux fuel n) = n := by
  induction fuel with
  | zero =>
    intro n hn
    have h0 : n = 0 := Nat.le_zero.mp hn
    subst h0
    rfl
  | succ fuel ih =>
    intro n hn
    by_cases h : n = 0
    · subst h; rfl
    · simp only [digitsAux, h, if_false, undigits_cons]
      have hdiv : n / 10 ≤ fuel := by
        have h1 : n / 10 < n := Nat.div_lt_self (Nat.pos_of_ne_zero h) (by decide)
        omega
      rw [ih (n / 10) hdiv]
      exact Nat.mod_add_div n 10

theorem ndigits_inj {m n : Nat} (h : ndigits m = ndigits n) : m = n := by
  have hm := undigits_digitsAux m m (Nat.le_refl m)
  have hn := undigits_digitsAux n n (Nat.le_refl n)
  rw [show digitsAux m m = ndigits m from rfl] at hm
  rw [show digitsAux n n = ndigits n from rfl] at hn
  rw [← hm, ← hn, h]

theorem digitChar_inj :
    ∀ a, a < 10 → ∀ b, b < 10 → digitChar a = digitChar b → a = b := by decide

theorem map_digitChar_inj : ∀ (l₁ l₂ : List Nat), (∀ d ∈ l₁, d < 10) →
    (∀ d ∈ l₂, d < 10) → l₁.map digitChar = l₂.map digitChar → l₁ = l₂
  | [], [], _, _, _ => rfl
  | [], _ :: _, _, _, h => by simp at h
  | _ :: _, [], _, _, h => by simp at h
  | a :: l₁, b :: l₂, h₁, h₂, h => by
    simp only [List.map_cons, List.cons.injEq] at h
    have hab := digitChar_inj a (h₁ a (by simp)) b (h₂ b (by simp)) h.1
    have htail := map_digitChar_inj l₁ l₂ (fun d hd => h₁ d (by simp [hd]))
      (fun d hd => h₂ d (by simp [hd])) h.2
    rw [hab, htail]

theorem natStr_inj {m n : Nat} (h : natStr m = natStr n) : m = n := by
  have h1 : (ndigits m).map digitChar = (ndigits n).map digitChar :=
    congrArg String.data h
  exact ndigits_inj (map_digitChar_inj _ _ (digitsAux_lt _ _) (digitsAux_lt _ _) h1)

theorem uuid4_inj {m n : Nat} (h : uuid4 m = uuid4 n) : m = n := by
  have h1 := congrArg String.data h
  rw [show uuid4 m = uuidBase ++ natStr m from rfl,
    show uuid4 n = uuidBase ++ natStr n from rfl,
    string_append_data, string_append_data] at h1
  exact natStr_inj (string_data_inj (List.append_cancel_left h1))

theorem uuid4_ne_empty (n : Nat) : uuid4 n ≠ "" := by
  intro h
  have h1 := congrArg String.data h
  rw [show uuid4 n = uuidBase ++ natStr n from rfl, string_append_data] at h1
  have h2 := (List.append_eq_nil.mp h1).1
  exact absurd h2 (by decide)

/-! ### Simulation lemmas: the cache never changes any operation's outcome -/

theorem get_product_disabled (redisD : RedisState) (db : Database)
    (product_id : String) :
    ProductService.get_product none redisD .ok .ok db product_id =
      (Except.ok (database.get_product_by_id db product_id), redisD) := by
  cases h : database.get_product_by_id db product_id <;>
    simp [ProductService.get_product, CacheService.get_product_from_cache,
      ProductService.get_product_on_miss, CacheService.set_product_in_cache, h]

theorem update_product_components (client : Option RedisClientConfig)
    (redis : RedisState) (invF : RedisOutcome) (db : Database)
    (product_id : String) (u : ProductUpdate) :
    (ProductService.update_product client redis invF db product_id u).1 =
      (database.update_product db product_id u).1 ∧
    (ProductService.update_product client redis invF db product_id u).2.1 =
      (database.update_product db product_id u).2 := by
  cases h : database.update_product db product_id u with
  | mk r db' =>
    cases r <;> simp [ProductService.update_product, h]

theorem delete_product_components (client : Option RedisClientConfig)
    (redis : RedisState) (invF : RedisOutcome) (db : Database)
    (product_id : String) :
    (ProductService.delete_product client redis invF db product_id).1 =
      (database.delete_product db product_id).1 ∧
    (ProductService.delete_product client redis invF db product_id).2.1 =
      (database.delete_product db product_id).2 := by
  cases h : database.delete_product db product_id with
  | mk b db' =>
    cases b <;> simp [ProductService.delete_product, h]

theorem coherent_evict (db : Database) (redis : RedisState) (ks : List String)
    (hcoh : coherent db redis) : coherent db (evict redis ks) := by
  intro k c hk
  exact hcoh k c (rget_evict_some hk)

theorem coherent_create (db : Database) (redis : RedisState)
    (pd : ProductCreate) (hcoh : coherent db redis) :
    coherent (database.create_product db pd).2 redis := by
  intro k c hk
  obtain ⟨pid, p, hkey, hdbp, hval⟩ := hcoh k c hk
  refine ⟨pid, p, hkey, ?_, hval⟩
  simp only [database.get_product_by_id, database.create_product] at hdbp ⊢
  exact findById_append_some hdbp _

theorem get_product_coherent (c : RedisClientConfig) (redis : RedisState)
    (db : Database) (product_id : String) (hcoh : coherent db redis) :
    (ProductService.get_product (some c) redis .ok .ok db product_id).1 =
      Except.ok (database.get_product_by_id db product_id) ∧
    coherent db
      (ProductService.get_product (some c) redis .ok .ok db product_id).2 := by
  cases hget : rget redis (cacheKey product_id) with
  | none =>
    have hfetch : CacheService.get_product_from_cache (some c) redis .ok
        product_id = none := by
      simp [CacheService.get_product_from_cache, hget]
    cases hdb : database.get_product_by_id db product_id with
    | none =>
      constructor
      · simp [ProductService.get_product, hfetch,
          ProductService.get_product_on_miss, hdb]
      · simpa [ProductService.get_product, hfetch,
          ProductService.get_product_on_miss, hdb] using hcoh
    | some p =>
      constructor
      · simp [ProductService.get_product, hfetch,
          ProductService.get_product_on_miss, hdb]
      · simp only [ProductService.get_product, hfetch,
          ProductService.get_product_on_miss, hdb,
          CacheService.set_product_in_cache]
        have hpid : p.id = product_id := by
          have hdb' := hdb
          simp only [database.get_product_by_id] at hdb'
          exact findById_id hdb'
        intro k cb hk
        rw [rget_rset, hpid] at hk
        by_cases hkk : cacheKey product_id = k
        · rw [if_pos hkk] at hk
          cases hk
          exact ⟨product_id, p, hkk.symm, hdb, rfl⟩
        · rw [if_neg hkk] at hk
          exact hcoh k cb hk
  | some cb =>
    obtain ⟨pid, p, hkey, hdbp, hval⟩ := hcoh _ _ hget
    have hpid : product_id = pid := cacheKey_inj hkey
    subst hpid
    subst hval
    have hfetch : CacheService.get_product_from_cache (some c) redis .ok
        product_id = some (productToJson p) := by
      simp [CacheService.get_product_from_cache, hget]
    constructor
    · simp [ProductService.get_product, hfetch, truthy_productToJson,
        productOfJson_productToJson, hdbp]
    · simpa [ProductService.get_product, hfetch, truthy_productToJson,
        productOfJson_productToJson] using hcoh

theorem coherent_update (c : RedisClientConfig) (redis : RedisState)
    (db : Database) (product_id : String) (u : ProductUpdate)
    (hcoh : coherent db redis) :
    coherent (database.update_product db product_id u).2
      (ProductService.update_product (some c) redis .ok db product_id u).2.2 := by
  cases hup : updateFirst db.products product_id u with
  | none =>
    simpa [ProductService.update_product, database.update_product, hup]
      using hcoh
  | some rp =>
    obtain ⟨r, ps'⟩ := rp
    simp only [ProductService.update_product, database.update_product, hup,
      CacheService.invalidate_product_cache]
    intro k cb hk
    rw [rget_rdel] at hk
    by_cases hkk : cacheKey product_id = k
    · rw [if_pos hkk] at hk
      exact absurd hk (by simp)
    · rw [if_neg hkk] at hk
      obtain ⟨pid, p, hkey, hdbp, hval⟩ := hcoh k cb hk
      have hne : pid ≠ product_id := by
        intro hc
        exact hkk (by rw [hkey, hc])
      refine ⟨pid, p, hkey, ?_, hval⟩
      simp only [database.get_product_by_id] at hdbp ⊢
      rw [updateFirst_frame hup hne]
      exact hdbp

theorem coherent_delete (c : RedisClientConfig) (redis : RedisState)
    (db : Database) (product_id : String) (hcoh : coherent db redis) :
    coherent (database.delete_product db product_id).2
      (ProductService.delete_product (some c) redis .ok db product_id).2.2 := by
  cases hrm : removeFirst db.products product_id with
  | none =>
    simpa [ProductService.delete_product, database.delete_product, hrm]
      using hcoh
  | some ps' =>
    simp only [ProductService.delete_product, database.delete_product, hrm,
      CacheService.invalidate_product_cache]
    intro k cb hk
    rw [rget_rdel] at hk
    by_cases hkk : cacheKey product_id = k
    · rw [if_pos hkk] at hk
      exact absurd hk (by simp)
    · rw [if_neg hkk] at hk
      obtain ⟨pid, p, hkey, hdbp, hval⟩ := hcoh k cb hk
      have hne : pid ≠ product_id := by
        intro hc
        exact hkk (by rw [hkey, hc])
      refine ⟨pid, p, hkey, ?_, hval⟩
      simp only [database.get_product_by_id] at hdbp ⊢
      rw [removeFirst_frame hrm hne]
      exact hdbp

theorem stepOp_sim (db : Database) (redis redisD : RedisState) (op : Op)
    (hcoh : coherent db redis) :
    (stepOp (some connectConfig) db redis op).1 =
      (stepOp none db redisD op).1 ∧
    (stepOp (some connectConfig) db redis op).2.1 =
      (stepOp none db redisD op).2.1 ∧
    coherent (stepOp (some connectConfig) db redis op).2.1
      (stepOp (some connectConfig) db redis op).2.2 := by
  cases op with
  | create pd =>
    refine ⟨rfl, rfl, ?_⟩
    simpa [stepOp, ProductService.create_product]
      using coherent_create db redis pd hcoh
  | read product_id =>
    obtain ⟨h1, h2⟩ := get_product_coherent connectConfig redis db product_id hcoh
    refine ⟨?_, rfl, ?_⟩
    · simp only [stepOp, get_product_disabled, h1]
    · simpa [stepOp] using h2
  | update product_id u =>
    obtain ⟨e1, e2⟩ := update_product_components (some connectConfig) redis .ok
      db product_id u
    obtain ⟨d1, d2⟩ := update_product_components none redisD .ok db product_id u
    refine ⟨?_, ?_, ?_⟩
    · simp only [stepOp, e1, d1]
    · simp only [stepOp, e2, d2]
    · simpa [stepOp, e2] using coherent_update connectConfig redis db product_id u hcoh
  | delete product_id =>
    obtain ⟨e1, e2⟩ := delete_product_components (some connectConfig) redis .ok
      db product_id
    obtain ⟨d1, d2⟩ := delete_product_components none redisD .ok db product_id
    refine ⟨?_, ?_, ?_⟩
    · simp only [stepOp, e1, d1]
    · simp only [stepOp, e2, d2]
    · simpa [stepOp, e2] using coherent_delete connectConfig redis db product_id hcoh

theorem runOps_cache_oblivious (ops : List Op) :
    ∀ (evs : List (List String)) (db : Database) (redis redisD : RedisState),
      coherent db redis →
      (runOps (some connectConfig) db redis ops evs).1 =
        (runOps none db redisD ops evs).1 ∧
      (runOps (some connectConfig) db redis ops evs).2.1 =
        (runOps none db redisD ops evs).2.1 := by
  induction ops with
  | nil => intro evs db redis redisD _; exact ⟨rfl, rfl⟩
  | cons op ops ih =>
    intro evs db redis redisD hcoh
    have hcoh1 : coherent db (evict redis (evs.headD [])) :=
      coherent_evict db redis _ hcoh
    obtain ⟨h1, h2, h3⟩ := stepOp_sim db (evict redis (evs.headD []))
      (evict redisD (evs.headD [])) op hcoh1
    obtain ⟨t1, t2⟩ := ih evs.tail
      (stepOp (some connectConfig) db (evict redis (evs.headD [])) op).2.1
      (stepOp (some connectConfig) db (evict redis (evs.headD [])) op).2.2
      (stepOp none db (evict redisD (evs.headD [])) op).2.2 h3
    constructor
    · simp only [runOps]
      rw [h1, ← h2, t1]
    · simp only [runOps]
      rw [← h2, t2]

theorem cacheStep_none (redis : RedisState) (op : CacheOp) :
    cacheStep ⟨none⟩ redis op =
      ((match op with
        | .fetch _ _ => .fetched none
        | .store _ _ => .stored
        | .remove _ _ => .removed
        | .health _ => .healthy false), ⟨none⟩, redis) := by
  cases op <;> rfl

theorem runCache_disabled (ops : List CacheOp) :
    ∀ (redis : RedisState),
      (runCache ⟨none⟩ redis ops).2.1.redis_client = none ∧
      (runCache ⟨none⟩ redis ops).2.2 = redis ∧
      ∀ r ∈ (runCache ⟨none⟩ redis ops).1,
        r = .fetched none ∨ r = .stored ∨ r = .removed ∨ r = .healthy false := by
  induction ops with
  | nil => exact fun redis => ⟨rfl, rfl, by simp [runCache]⟩
  | cons op ops ih =>
    intro redis
    refine ⟨?_, ?_, ?_⟩
    · simp only [runCache, cacheStep_none]
      exact (ih redis).1
    · simp only [runCache, cacheStep_none]
      exact (ih redis).2.1
    · intro r hr
      simp only [runCache, cacheStep_none, List.mem_cons] at hr
      rcases hr with rfl | hr
      · cases op with
        | fetch _ _ => exact Or.inl rfl
        | store _ _ => exact Or.inr (Or.inl rfl)
        | remove _ _ => exact Or.inr (Or.inr (Or.inl rfl))
        | health _ => exact Or.inr (Or.inr (Or.inr rfl))
      · exact (ih redis).2.2 r hr

/-! ### Helper lemmas for the claim theorems -/

theorem fetch_none_of_cache_failure {client : Option RedisClientConfig}
    {redis : RedisState} {getF : RedisOutcome} {product_id : String}
    (h : client = none ∨ getF = RedisOutcome.err ∨
      rget redis (cacheKey product_id) = some CachedBytes.malformed ∨
      rget redis (cacheKey product_id) = some CachedBytes.empty) :
    CacheService.get_product_from_cache client redis getF product_id = none := by
  rcases h with h | h | h | h
  · simp [CacheService.get_product_from_cache, h]
  · cases client <;> simp [CacheService.get_product_from_cache, h]
  · cases client <;> cases getF <;>
      simp [CacheService.get_product_from_cache, h]
  · cases client <;> cases getF <;>
      simp [CacheService.get_product_from_cache, h]

theorem get_product_on_miss_fst (client : Option RedisClientConfig)
    (redis : RedisState) (setF : RedisOutcome) (db : Database)
    (product_id : String) :
    (ProductService.get_product_on_miss client redis setF db product_id).1 =
      Except.ok (database.get_product_by_id db product_id) := by
  cases h : database.get_product_by_id db product_id <;>
    simp [ProductService.get_product_on_miss, h]

/-! ### The claims -/

/-- C1: on a read, any cache-backend failure — backend unavailable (no
client), a raised connection/timeout `RedisError`, or a cached payload that
fails deserialization (raw empty string, or bytes on which `json.loads`
raises) — is fully absorbed: the read falls back to the Persistent Store
and returns exactly the store's answer (`some` record or `none` = NotFound)
wrapped in `Except.ok`; the cache failure is never surfaced as an operation
failure, never turned into NotFound, and the result is the same whatever
the outcome `setF` of the subsequent best-effort cache store. -/
theorem C1_cache_failure_absorbed (client : Option RedisClientConfig)
    (redis : RedisState) (getF setF : RedisOutcome) (db : Database)
    (product_id : String)
    (h : client = none ∨ getF = RedisOutcome.err ∨
      rget redis (cacheKey product_id) = some CachedBytes.malformed ∨
      rget redis (cacheKey product_id) = some CachedBytes.empty) :
    (ProductService.get_product client redis getF setF db product_id).1 =
      Except.ok (database.get_product_by_id db product_id) := by
  have hfetch := fetch_none_of_cache_failure h
  simp only [ProductService.get_product, hfetch]
  exact get_product_on_miss_fst client redis setF db product_id

theorem C1_witness :
    ((none : Option RedisClientConfig) = none ∨
      RedisOutcome.ok = RedisOutcome.err ∨
      rget [] (cacheKey "a") = some CachedBytes.malformed ∨
      rget [] (cacheKey "a") = some CachedBytes.empty) ∧
    (ProductService.get_product none [] .ok .ok
      ⟨[⟨"a", "n", "d", 10, 5⟩], 1⟩ "a").1 =
      Except.ok (database.get_product_by_id ⟨[⟨"a", "n", "d", 10, 5⟩], 1⟩ "a") :=
  ⟨Or.inl rfl, C1_cache_failure_absorbed none [] .ok .ok
    ⟨[⟨"a", "n", "d", 10, 5⟩], 1⟩ "a" (Or.inl rfl)⟩

/-- C2: for any sequence of create/read/update/delete operations starting
from a store-coherent cache, the run with the cache backend entirely
unavailable (client `none`) produces exactly the same sequence of operation
results and the same final store as the run with the backend available and
fault-free, under any TTL-expiry schedule `evs`; the only difference is that
reads always query the store. -/
theorem C2_unavailable_cache_same_results (ops : List Op)
    (evs : List (List String)) (db : Database) (redis redisD : RedisState)
    (hcoh : coherent db redis) :
    (runOps (some connectConfig) db redis ops evs).1 =
      (runOps none db redisD ops evs).1 ∧
    (runOps (some connectConfig) db redis ops evs).2.1 =
      (runOps none db redisD ops evs).2.1 :=
  runOps_cache_oblivious ops evs db redis redisD hcoh

theorem C2_witness :
    coherent ⟨[], 0⟩ [] ∧
    ((runOps (some connectConfig) ⟨[], 0⟩ [] [Op.read "a"] []).1 =
        (runOps none ⟨[], 0⟩ [] [Op.read "a"] []).1 ∧
      (runOps (some connectConfig) ⟨[], 0⟩ [] [Op.read "a"] []).2.1 =
        (runOps none ⟨[], 0⟩ [] [Op.read "a"] []).2.1) :=
  ⟨(fun _ _ h => nomatch h),
    C2_unavailable_cache_same_results [Op.read "a"] [] ⟨[], 0⟩ [] []
      (fun _ _ h => nomatch h)⟩

/-- C3: after a successful update whose cache-invalidation call succeeded,
any subsequent read of that id (no intervening writes) returns exactly the
updated record — whatever keys the backend has since expired (`evs`) and
whatever faults the read's own cache calls hit — because the update removed
(and did not refresh) the cache entry for that id. -/
theorem C3_read_after_update (c : RedisClientConfig) (redis : RedisState)
    (db : Database) (product_id : String) (u : ProductUpdate) (p : Product)
    (db' : Database) (redis' : RedisState) (evs : List String)
    (getF setF : RedisOutcome)
    (h : ProductService.update_product (some c) redis .ok db product_id u =
      (some p, db', redis')) :
    (ProductService.get_product (some c) (evict redis' evs) getF setF db'
      product_id).1 = Except.ok (some p) := by
  cases hup : updateFirst db.products product_id u with
  | none =>
    simp only [ProductService.update_product, database.update_product, hup] at h
    simp at h
  | some rp =>
    obtain ⟨r, ps'⟩ := rp
    simp only [ProductService.update_product, database.update_product, hup,
      CacheService.invalidate_product_cache, Prod.mk.injEq,
      Option.some.injEq] at h
    obtain ⟨h1, h2, h3⟩ := h
    subst h1; subst h2; subst h3
    have hnone : rget (evict (rdel redis (cacheKey product_id)) evs)
        (cacheKey product_id) = none :=
      rget_evict_none (by rw [rget_rdel]; simp)
    have hfetch : CacheService.get_product_from_cache (some c)
        (evict (rdel redis (cacheKey product_id)) evs) getF product_id = none := by
      cases getF <;> simp [CacheService.get_product_from_cache, hnone]
    have hfind : database.get_product_by_id
        { db with products := ps' } product_id = some r := by
      simp only [database.get_product_by_id]
      exact updateFirst_findById hup
    simp only [ProductService.get_product, hfetch]
    rw [get_product_on_miss_fst, hfind]

theorem C3_witness :
    ProductService.update_product (some connectConfig) [] .ok
        ⟨[⟨"a", "n", "d", 10, 5⟩], 1⟩ "a" ⟨none, none, some 12, none⟩ =
      (some ⟨"a", "n", "d", 12, 5⟩, ⟨[⟨"a", "n", "d", 12, 5⟩], 1⟩, []) ∧
    (ProductService.get_product (some connectConfig) (evict [] []) .ok .ok
      ⟨[⟨"a", "n", "d", 12, 5⟩], 1⟩ "a").1 = Except.ok (some ⟨"a", "n", "d", 12, 5⟩) :=
  ⟨rfl, C3_read_after_update connectConfig [] ⟨[⟨"a", "n", "d", 10, 5⟩], 1⟩
    "a" ⟨none, none, some 12, none⟩ ⟨"a", "n", "d", 12, 5⟩
    ⟨[⟨"a", "n", "d", 12, 5⟩], 1⟩ [] [] .ok .ok rfl⟩

/-- C4: update applies exactly the fields present in the optional-field
input to the stored record (each present field takes the new value, each
absent field keeps its stored value, the identifier is untouched), leaves
the lookup of every other identifier unchanged, and for an identifier with
no record reports not found and modifies nothing. -/
theorem C4_partial_update_semantics (db : Database) (product_id : String)
    (u : ProductUpdate) :
    (database.get_product_by_id db product_id = none →
      database.update_product db product_id u = (none, db)) ∧
    (∀ p, database.get_product_by_id db product_id = some p →
      ∃ r db', database.update_product db product_id u = (some r, db') ∧
        r.id = p.id ∧
        r.name = u.name.getD p.name ∧
        r.description = u.description.getD p.description ∧
        r.price = u.price.getD p.price ∧
        r.stock_quantity = u.stock_quantity.getD p.stock_quantity ∧
        db'.nextUuid = db.nextUuid ∧
        database.get_product_by_id db' product_id = some r ∧
        (∀ pid, pid ≠ product_id →
          database.get_product_by_id db' pid =
            database.get_product_by_id db pid)) := by
  constructor
  · intro h
    simp only [database.get_product_by_id] at h
    simp [database.update_product, updateFirst_eq_none u h]
  · intro p hp
    simp only [database.get_product_by_id] at hp
    obtain ⟨ps', hps'⟩ := updateFirst_of_findById u hp
    refine ⟨applyUpdate p u, { products := ps', nextUuid := db.nextUuid },
      ?_, rfl, rfl, rfl, rfl, rfl, rfl, ?_, ?_⟩
    · simp [database.update_product, hps']
    · simp only [database.get_product_by_id]
      exact updateFirst_findById hps'
    · intro pid hne
      simp only [database.get_product_by_id]
      exact updateFirst_frame hps' hne

theorem C4_witness :
    (database.get_product_by_id ⟨[⟨"a", "n", "d", 10, 7⟩], 5⟩ "z" = none →
      database.update_product ⟨[⟨"a", "n", "d", 10, 7⟩], 5⟩ "z"
        ⟨some "m", none, some 12, none⟩ = (none, ⟨[⟨"a", "n", "d", 10, 7⟩], 5⟩)) ∧
    (∃ r db', database.update_product ⟨[⟨"a", "n", "d", 10, 7⟩], 5⟩ "a"
        ⟨some "m", none, some 12, none⟩ = (some r, db') ∧
      r.id = (⟨"a", "n", "d", 10, 7⟩ : Product).id ∧
      r.name = (some "m").getD (⟨"a", "n", "d", 10, 7⟩ : Product).name ∧
      r.description =
        (none : Option String).getD (⟨"a", "n", "d", 10, 7⟩ : Product).description ∧
      r.price = (some (12 : Rat)).getD (⟨"a", "n", "d", 10, 7⟩ : Product).price ∧
      r.stock_quantity =
        (none : Option Int).getD (⟨"a", "n", "d", 10, 7⟩ : Product).stock_quantity ∧
      db'.nextUuid = (⟨[⟨"a", "n", "d", 10, 7⟩], 5⟩ : Database).nextUuid ∧
      database.get_product_by_id db' "a" = some r ∧
      (∀ pid, pid ≠ "a" →
        database.get_product_by_id db' pid =
          database.get_product_by_id ⟨[⟨"a", "n", "d", 10, 7⟩], 5⟩ pid)) :=
  ⟨(C4_partial_update_semantics ⟨[⟨"a", "n", "d", 10, 7⟩], 5⟩ "z"
      ⟨some "m", none, some 12, none⟩).1,
    (C4_partial_update_semantics ⟨[⟨"a", "n", "d", 10, 7⟩], 5⟩ "a"
      ⟨some "m", none, some 12, none⟩).2 ⟨"a", "n", "d", 10, 7⟩ rfl⟩

/-- C5: update and delete of an identifier with no record in the Persistent
Store report NotFound (`none` / `false`), leave the store unchanged and
perform no cache mutation: the cache state returned is exactly the input
one, for no key anything was stored, removed or modified. -/
theorem C5_absent_id_no_cache_mutation (client : Option RedisClientConfig)
    (redis : RedisState) (invF : RedisOutcome) (db : Database)
    (product_id : String) (u : ProductUpdate)
    (h : database.get_product_by_id db product_id = none) :
    ProductService.update_product client redis invF db product_id u =
      (none, db, redis) ∧
    ProductService.delete_product client redis invF db product_id =
      (false, db, redis) := by
  simp only [database.get_product_by_id] at h
  constructor
  · simp [ProductService.update_product, database.update_product,
      updateFirst_eq_none u h]
  · simp [ProductService.delete_product, database.delete_product,
      removeFirst_eq_none h]

theorem C5_witness :
    database.get_product_by_id ⟨[⟨"a", "n", "d", 10, 5⟩], 1⟩ "z" = none ∧
    (ProductService.update_product (some connectConfig)
        [(cacheKey "a", CachedBytes.val (Json.obj []))] .ok
        ⟨[⟨"a", "n", "d", 10, 5⟩], 1⟩ "z" ⟨some "m", none, none, none⟩ =
      (none, ⟨[⟨"a", "n", "d", 10, 5⟩], 1⟩,
        [(cacheKey "a", CachedBytes.val (Json.obj []))]) ∧
    ProductService.delete_product (some connectConfig)
        [(cacheKey "a", CachedBytes.val (Json.obj []))] .ok
        ⟨[⟨"a", "n", "d", 10, 5⟩], 1⟩ "z" =
      (false, ⟨[⟨"a", "n", "d", 10, 5⟩], 1⟩,
        [(cacheKey "a", CachedBytes.val (Json.obj []))])) :=
  ⟨rfl, C5_absent_id_no_cache_mutation (some connectConfig)
    [(cacheKey "a", CachedBytes.val (Json.obj []))] .ok
    ⟨[⟨"a", "n", "d", 10, 5⟩], 1⟩ "z" ⟨some "m", none, none, none⟩ rfl⟩

/-- C6: a read whose cache fetch is a miss and whose identifier has no
record in the Persistent Store reports not found (`Except.ok none`) and
returns the cache state unchanged: negative results are never cached. -/
theorem C6_negative_result_not_cached (client : Option RedisClientConfig)
    (redis : RedisState) (getF setF : RedisOutcome) (db : Database)
    (product_id : String)
    (hmiss : CacheService.get_product_from_cache client redis getF
      product_id = none)
    (habs : database.get_product_by_id db product_id = none) :
    ProductService.get_product client redis getF setF db product_id =
      (Except.ok none, redis) := by
  simp [ProductService.get_product, hmiss,
    ProductService.get_product_on_miss, habs]

theorem C6_witness :
    CacheService.get_product_from_cache (some connectConfig) [] .ok "a" = none ∧
    database.get_product_by_id ⟨[], 3⟩ "a" = none ∧
    ProductService.get_product (some connectConfig) [] .ok .ok ⟨[], 3⟩ "a" =
      (Except.ok none, []) :=
  ⟨rfl, rfl, C6_negative_result_not_cached (some connectConfig) [] .ok .ok
    ⟨[], 3⟩ "a" rfl rfl⟩

/-- C7: create inserts into the Persistent Store only — the cache state is
returned untouched — and the created record carries the caller's fields
plus a generated identifier that is non-empty and distinct from every
identifier the generator ever produced before, hence from the id of every
record ever created (deleted ones included). -/
theorem C7_create_store_only_fresh_id (client : Option RedisClientConfig)
    (redis : RedisState) (db : Database) (pd : ProductCreate)
    (hvalid : validCreate pd) (hids : dbIds db) :
    ∃ p db', ProductService.create_product client redis db pd =
        (p, db', redis) ∧
      db'.products = db.products ++ [p] ∧
      p.id ≠ "" ∧
      (∀ k, k < db.nextUuid → p.id ≠ uuid4 k) ∧
      (∀ q ∈ db.products, p.id ≠ q.id) ∧
      p.name = pd.name ∧ p.description = pd.description ∧
      p.price = pd.price ∧ p.stock_quantity = pd.stock_quantity ∧
      dbIds db' := by
  refine ⟨(database.create_product db pd).1, (database.create_product db pd).2,
    rfl, rfl, uuid4_ne_empty db.nextUuid, ?_, ?_, rfl, rfl, rfl, rfl, ?_⟩
  · intro k hk heq
    have hkn := uuid4_inj heq
    omega
  · intro q hq heq
    obtain ⟨k, hk, hqid⟩ := hids q hq
    rw [hqid] at heq
    have hkn := uuid4_inj heq
    omega
  · intro q hq
    have hnext : (database.create_product db pd).2.nextUuid = db.nextUuid + 1 :=
      rfl
    rcases List.mem_append.mp hq with hq | hq
    · obtain ⟨k, hk, hqid⟩ := hids q hq
      exact ⟨k, by omega, hqid⟩
    · rcases List.mem_singleton.mp hq with rfl
      exact ⟨db.nextUuid, by omega, rfl⟩

theorem C7_witness :
    validCreate ⟨"X", "d", 1, 0⟩ ∧ dbIds ⟨[], 0⟩ ∧
    ∃ p db', ProductService.create_product none [] ⟨[], 0⟩ ⟨"X", "d", 1, 0⟩ =
        (p, db', []) ∧
      db'.products = (⟨[], 0⟩ : Database).products ++ [p] ∧
      p.id ≠ "" ∧
      (∀ k, k < (⟨[], 0⟩ : Database).nextUuid → p.id ≠ uuid4 k) ∧
      (∀ q ∈ (⟨[], 0⟩ : Database).products, p.id ≠ q.id) ∧
      p.name = "X" ∧ p.description = "d" ∧
      p.price = 1 ∧ p.stock_quantity = 0 ∧
      dbIds db' :=
  ⟨by decide, (fun q hq => absurd hq (List.not_mem_nil q)),
    C7_create_store_only_fresh_id none [] ⟨[], 0⟩ ⟨"X", "d", 1, 0⟩ (by decide)
      (fun q hq => absurd hq (List.not_mem_nil q))⟩

/-- C8 counterexample: the claim states that the system never retries a
timed-out cache call synchronously inside the request path, but
`CacheService._connect` passes `retry_on_timeout=True` to the Redis client
constructor, which makes the client retry the command once on timeout
within the same request; the no-synchronous-retry part of the claim is
therefore false on the actual configuration. -/
theorem C8_counterexample : ¬ connectConfig.retry_on_timeout = false := by
  decide

/-- C8 amended: every cache call applies the configured short timeouts
(5-second connect and socket timeouts), and a timeout — a `RedisError`,
injected here as the `err` outcome — is treated as unavailable: fetch
yields a miss, store and remove are no-ops, the health probe reports
`false`; however the client is built with `retry_on_timeout=True`, so the
Redis client performs one synchronous retry on timeout inside the request
path. -/
theorem C8_timeouts_absorbed_but_retry_enabled :
    connectConfig.socket_connect_timeout = some 5 ∧
    connectConfig.socket_timeout = some 5 ∧
    connectConfig.retry_on_timeout = true ∧
    (∀ (client : Option RedisClientConfig) (redis : RedisState)
      (product_id : String),
      CacheService.get_product_from_cache client redis .err product_id = none) ∧
    (∀ (client : Option RedisClientConfig) (redis : RedisState) (p : Product),
      CacheService.set_product_in_cache client redis .err p = redis) ∧
    (∀ (client : Option RedisClientConfig) (redis : RedisState)
      (product_id : String),
      CacheService.invalidate_product_cache client redis .err product_id =
        redis) ∧
    (∀ client : Option RedisClientConfig,
      CacheService.health_check client .err = false) := by
  refine ⟨rfl, rfl, rfl, ?_, ?_, ?_, ?_⟩
  · intro client redis product_id; cases client <;> rfl
  · intro client redis p; cases client <;> rfl
  · intro client redis product_id; cases client <;> rfl
  · intro client; cases client <;> rfl

/-- C9: when the initial connection attempt fails, `__init__` leaves the
client absent and nothing ever reassigns it: under any subsequent sequence
of cache-service calls with arbitrary per-call backend behaviour — the
backend may well be reachable again — the client is still absent at the
end, the backend state is never touched, every fetch is a miss, every store
and remove a no-op, and every health probe returns `false`. -/
theorem C9_connect_failure_disables_cache_forever (ops : List CacheOp)
    (redis : RedisState) :
    (CacheService.init .err).redis_client = none ∧
    (runCache (CacheService.init .err) redis ops).2.1.redis_client = none ∧
    (runCache (CacheService.init .err) redis ops).2.2 = redis ∧
    ∀ r ∈ (runCache (CacheService.init .err) redis ops).1,
      r = .fetched none ∨ r = .stored ∨ r = .removed ∨ r = .healthy false :=
  ⟨rfl, (runCache_disabled ops redis).1, (runCache_disabled ops redis).2.1,
    (runCache_disabled ops redis).2.2⟩

theorem C9_witness :
    CacheCallResult.healthy false ∈
      (runCache (CacheService.init .err) [] [CacheOp.health .ok]).1 ∧
    (CacheCallResult.healthy false = .fetched none ∨
      CacheCallResult.healthy false = .stored ∨
      CacheCallResult.healthy false = .removed ∨
      CacheCallResult.healthy false = .healthy false) :=
  ⟨List.Mem.head _,
    (C9_connect_failure_disables_cache_forever [CacheOp.health .ok] []).2.2.2
      _ (List.Mem.head _)⟩

/-- C10: when the cache holds a payload that deserializes to a Python-falsy
value (for instance the empty JSON object, the number 0, or the empty
string), the read treats it as a miss: it behaves exactly as the
database fall-through path, rather than returning the cached value. -/
theorem C10_falsy_payload_falls_through (c : RedisClientConfig)
    (redis : RedisState) (setF : RedisOutcome) (db : Database)
    (product_id : String) (j : Json)
    (hget : rget redis (cacheKey product_id) = some (CachedBytes.val j))
    (hfalsy : j.truthy = false) :
    ProductService.get_product (some c) redis .ok setF db product_id =
      ProductService.get_product_on_miss (some c) redis setF db product_id := by
  simp [ProductService.get_product, CacheService.get_product_from_cache,
    hget, hfalsy]

theorem C10_witness :
    rget [(cacheKey "a", CachedBytes.val (Json.obj []))] (cacheKey "a") =
      some (CachedBytes.val (Json.obj [])) ∧
    (Json.obj []).truthy = false ∧
    ProductService.get_product (some connectConfig)
        [(cacheKey "a", CachedBytes.val (Json.obj []))] .ok .ok
        ⟨[⟨"a", "n", "d", 10, 5⟩], 1⟩ "a" =
      ProductService.get_product_on_miss (some connectConfig)
        [(cacheKey "a", CachedBytes.val (Json.obj []))] .ok
        ⟨[⟨"a", "n", "d", 10, 5⟩], 1⟩ "a" :=
  ⟨rfl, rfl, C10_falsy_payload_falls_through connectConfig
    [(cacheKey "a", CachedBytes.val (Json.obj []))] .ok
    ⟨[⟨"a", "n", "d", 10, 5⟩], 1⟩ "a" (Json.obj []) rfl rfl⟩
